import Mathlib

/-!
Verification development for the log-industrialisation pipeline.

The Python sources are shallowly embedded:
  * `log_parser.py`  : `LogParser.parse_log_line`, `validate_log_entry`,
    `_handle_failed_log` and the `stats` / `failed_logs` state.
  * `log_pipeline.py`: `_parse_user_agent`, `_enrich_log_entry`,
    `_update_aggregations`, and the streaming tail loop of
    `process_logs_streaming`.

Python JSON values are modelled by the inductive `Json` (numbers as `Rat`,
objects as association lists with distinct string keys, mirroring a
Python dict produced by `json.loads`).  The standard-library functions
`json.loads` and `datetime.fromisoformat` are external to the repository;
they are treated as oracles: a submitted line carries the outcome of
`json.loads` on it, and `datetime.fromisoformat` is a parameter
`isoHour : String -> Option (Fin 24)` returning the `.hour` field of the
parsed datetime (a Python `datetime` always has `0 <= hour <= 23`, hence
`Fin 24`) or `none` for a `ValueError`.
-/

/-- Python JSON-representable values: `None`, `bool`, numbers (`int` and
`float` collapsed to `Rat`, matching Python numeric equality), `str`,
`list`, and `dict` with string keys. -/
inductive Json where
  | null : Json
  | bool (b : Bool) : Json
  | num (q : Rat) : Json
  | str (s : String) : Json
  | arr (xs : List Json) : Json
  | obj (kvs : List (String × Json)) : Json

/-- Python equality test between a value and a string literal, as in
`event_type == "purchase"`: true exactly when the value is that string. -/
def jsonIsStr : Json → String → Bool
  | .str s, t => s == t
  | _, _ => false

mutual
/-- Structural Boolean equality on `Json`, modelling Python `==` on the
values that occur as dictionary keys and list elements here.  (Python
additionally identifies `True` with `1`; no record seen here exercises a
Boolean dictionary key, so the structural version suffices.) -/
def jeq : Json → Json → Bool
  | .null, .null => true
  | .bool a, .bool b => a == b
  | .num a, .num b => a == b
  | .str a, .str b => a == b
  | .arr a, .arr b => jeqList a b
  | .obj a, .obj b => jeqKVs a b
  | _, _ => false

def jeqList : List Json → List Json → Bool
  | [], [] => true
  | x :: xs, y :: ys => jeq x y && jeqList xs ys
  | _, _ => false

def jeqKVs : List (String × Json) → List (String × Json) → Bool
  | [], [] => true
  | (k1, v1) :: xs, (k2, v2) :: ys => k1 == k2 && jeq v1 v2 && jeqKVs xs ys
  | _, _ => false
end

/-- Key lookup in a Python dict modelled as an association list. -/
def lookupKey : List (String × Json) → String → Option Json
  | [], _ => none
  | (k, v) :: rest, f => if k = f then some v else lookupKey rest f

/-- `d.get(key, default)` on a dict. -/
def dgetD (kvs : List (String × Json)) (key : String) (default : Json) : Json :=
  (lookupKey kvs key).getD default

/-- In-place dict assignment `d[key] = v`: overwrites in place when the key
exists (Python dicts keep insertion order), appends otherwise. -/
def setKey : List (String × Json) → String → Json → List (String × Json)
  | [], k, v => [(k, v)]
  | (k', v') :: rest, k, v =>
      if k' = k then (k, v) :: rest else (k', v') :: setKey rest k v

/-- Python ASCII whitespace as stripped by `str.strip()`. -/
def isPyWS (c : Char) : Bool :=
  c = ' ' || c = '\t' || c = '\n' || c = '\r' || c = '\x0b' || c = '\x0c'

/-- `str.strip()`: drop leading and trailing whitespace. -/
def pyStrip (s : String) : String :=
  ⟨((s.data.dropWhile isPyWS).reverse.dropWhile isPyWS).reverse⟩

/-- Prefix test on character lists. -/
def isPrefixList : List Char → List Char → Bool
  | [], _ => true
  | _ :: _, [] => false
  | a :: as, b :: bs => a == b && isPrefixList as bs

/-- Substring occurrence test on character lists. -/
def containsSubList (needle : List Char) : List Char → Bool
  | [] => needle.isEmpty
  | c :: rest => isPrefixList needle (c :: rest) || containsSubList needle rest

/-- Python substring test `needle in hay` on strings. -/
def strContains (hay needle : String) : Bool :=
  containsSubList needle.data hay.data

/-! ## Record validator (`log_parser.py`) -/

/-- The two primitive types required of the fields of a log entry. -/
inductive PyType where
  | str : PyType
  | dict : PyType
deriving DecidableEq

/-- The `required_fields` dict of `LogParser.validate_log_entry`, in
insertion (= iteration) order. -/
def requiredFields : List (String × PyType) :=
  [("timestamp", .str), ("event_type", .str), ("session_id", .str),
   ("user_id", .str), ("ip_address", .str), ("user_agent", .str),
   ("location", .str), ("data", .dict)]

/-- Python membership test `field in entry`.  On a dict it is key lookup,
on a list it is elementwise equality (a string can only equal a string
element), on a string it is a substring test; on `None`, booleans and
numbers it raises `TypeError`. -/
def pyContains (entry : Json) (key : String) : Except String Bool :=
  match entry with
  | .obj kvs => .ok (lookupKey kvs key).isSome
  | .arr xs => .ok (xs.any fun v => jsonIsStr v key)
  | .str s => .ok (strContains s key)
  | _ => .error "TypeError: argument is not iterable"

/-- Python indexing `entry[key]` with a string key: dict lookup; indexing
a list or a string by a string raises `TypeError`, as does subscripting a
scalar. -/
def pyGetItem (entry : Json) (key : String) : Except String Json :=
  match entry with
  | .obj kvs =>
      match lookupKey kvs key with
      | some v => .ok v
      | none => .error "KeyError"
  | _ => .error "TypeError: indices must be integers"

/-- `isinstance(v, expected_type)` for the two types used by the
validator. -/
def isinstanceOf : Json → PyType → Bool
  | .str _, .str => true
  | .obj _, .dict => true
  | _, _ => false

/-- The `for field, expected_type in required_fields.items()` loop of
`validate_log_entry`: absence or a type mismatch returns `False`
immediately; a raised exception propagates. -/
def checkRequired (entry : Json) : List (String × PyType) → Except String Bool
  | [] => .ok true
  | (f, t) :: rest =>
      match pyContains entry f with
      | .error e => .error e
      | .ok false => .ok false
      | .ok true =>
          match pyGetItem entry f with
          | .error e => .error e
          | .ok v => if isinstanceOf v t then checkRequired entry rest else .ok false

/-- `LogParser.validate_log_entry`.  After the field loop,
`datetime.fromisoformat` is attempted on the `timestamp` field and a
`ValueError` yields `False`.  (The final source check whether `user_id`
is a member of the `data` dict is a no-op `pass` and is omitted.)  A
non-string timestamp at that point would raise, but the field loop has
already guaranteed a string. -/
def validate_log_entry (isoHour : String → Option (Fin 24)) (entry : Json) :
    Except String Bool :=
  match checkRequired entry requiredFields with
  | .error e => .error e
  | .ok false => .ok false
  | .ok true =>
      match pyGetItem entry "timestamp" with
      | .ok (.str s) => .ok (isoHour s).isSome
      | .ok _ => .error "TypeError: fromisoformat argument must be str"
      | .error e => .error e

/-- One entry of `LogParser.failed_logs`. -/
structure FailedLogRecord where
  timestamp : String
  original_line : String
  reason : String
  message : String
deriving DecidableEq

/-- The mutable state of a `LogParser`: the `stats` counters and the
`failed_logs` list. -/
structure ParserState where
  parsed : Nat
  failed : Nat
  failed_logs : List FailedLogRecord
deriving DecidableEq

/-- The freshly constructed `LogParser.__init__` state. -/
def initParserState : ParserState := ⟨0, 0, []⟩

/-- `LogParser._handle_failed_log`: increments `failed` and appends a
record whose `original_line` is `original_line.strip()` and whose
`timestamp` is the processing time `datetime.now().isoformat()` (passed
in as `now`). -/
def handle_failed_log (st : ParserState) (now original_line reason message : String) :
    ParserState :=
  { st with
      failed := st.failed + 1,
      failed_logs := st.failed_logs ++
        [{ timestamp := now, original_line := pyStrip original_line,
           reason := reason, message := message }] }

/-- An argument passed to `parse_log_line`.  A Python `str` carries the
outcome of `json.loads` on it (`.error msg` is a `JSONDecodeError` with
message `msg`).  `other` is a non-string object without a `strip`
attribute (such as `None` or an `int`): `json.loads` raises `TypeError`
on it, and `line.strip()` raises `AttributeError`. -/
inductive PyLine where
  | line (text : String) (decoded : Except String Json) : PyLine
  | other : PyLine

/-- `LogParser.parse_log_line`.  The first component is the returned
value (`.ok (some entry)` on success, `.ok none` for the handled failure
paths); `.error` marks an exception escaping to the caller.  For a
non-string argument, `json.loads` raises `TypeError`, the catch-all
`except Exception` handler runs, and building its `error_message` calls
`line.strip()`, which raises `AttributeError` before `_handle_failed_log`
runs: the exception propagates and the state is untouched. -/
def parse_log_line (isoHour : String → Option (Fin 24)) (now : String)
    (line : PyLine) (st : ParserState) :
    Except String (Option Json) × ParserState :=
  match line with
  | .other => (.error "AttributeError: object has no attribute strip", st)
  | .line text decoded =>
      match decoded with
      | .error e =>
          (.ok none,
           handle_failed_log st now text "json_decode_error"
             ("Malformed JSON log line: " ++ e ++ " - Line: " ++ pyStrip text))
      | .ok entry =>
          match validate_log_entry isoHour entry with
          | .ok true => (.ok (some entry), { st with parsed := st.parsed + 1 })
          | .ok false =>
              (.ok none,
               handle_failed_log st now text "validation_failed"
                 ("Validation failed for log entry: " ++ text))
          | .error e =>
              (.ok none,
               handle_failed_log st now text "unexpected_error"
                 ("Unexpected error parsing log line: " ++ e ++ " - Line: " ++
                   pyStrip text))

/-! ## User-agent classifier and enrichment (`log_pipeline.py`) -/

/-- `LogPipeline._parse_user_agent`: returns
`(device_type, os_name)` from ordered substring checks. -/
def parse_user_agent (ua : String) : String × String :=
  let device_type :=
    if strContains ua "Mobile" || strContains ua "Android" ||
       strContains ua "iPhone" || strContains ua "iPad" then
      if strContains ua "iPad" then "Tablet" else "Mobile"
    else if strContains ua "Windows" || strContains ua "Macintosh" ||
            strContains ua "X11" || strContains ua "Linux" then "Desktop"
    else "Unknown"
  let os_name :=
    if strContains ua "Windows NT 10.0" then "Windows 10"
    else if strContains ua "Windows NT" then "Windows (Older)"
    else if strContains ua "Macintosh; Intel Mac OS X" then "macOS"
    else if strContains ua "Android" then "Android"
    else if strContains ua "iPhone" || strContains ua "iPad" then "iOS"
    else if strContains ua "Ubuntu" || strContains ua "Linux" then "Linux"
    else "Unknown"
  (device_type, os_name)

/-- `LogPipeline._enrich_log_entry`: classifies the `user_agent` field
(`entry.get` with the empty string as default), stores `device_type` and
`os_name`, and re-stores `location` (defaulting to `Unknown`, the
`entry.get` default).  Only validated entries
reach enrichment, so the entry is a dict and `user_agent` is a string; on
anything else the substring membership tests of the classifier would
raise in Python, modelled by `.error`. -/
def enrich_log_entry (entry : Json) : Except String Json :=
  match entry with
  | .obj kvs =>
      match (match lookupKey kvs "user_agent" with
             | none => some ""
             | some (.str s) => some s
             | some _ => none) with
      | none => .error "TypeError: argument is not iterable"
      | some ua =>
          let info := parse_user_agent ua
          let kvs1 := setKey kvs "device_type" (.str info.1)
          let kvs2 := setKey kvs1 "os_name" (.str info.2)
          .ok (.obj (setKey kvs2 "location" (dgetD kvs2 "location" (.str "Unknown"))))
  | _ => .error "AttributeError: object has no attribute get"

/-! ## Aggregation engine (`LogPipeline._update_aggregations`) -/

/-- The `realtime_aggregations` state.  The count dicts with
`get(key, 0) + 1` updates are modelled as total count functions (absent
key = count 0); `hourly_traffic` is initialised with all 24 hour keys and
only ever indexed by a `datetime.hour`, hence a total function on
`Fin 24`.  Monetary and duration accumulators are exact rationals. -/
structure AggState where
  event_type_counts : Json → Nat
  hourly_traffic : Fin 24 → Nat
  location_traffic : Json → Nat
  device_type_traffic : Json → Nat
  os_traffic : Json → Nat
  purchase_total_amount : Rat
  purchase_count : Nat
  error_counts : Json → Nat
  session_duration_sum : Rat
  session_duration_count : Nat

/-- The aggregation state built by `LogPipeline.__init__`. -/
def initAgg : AggState :=
  { event_type_counts := fun _ => 0
    hourly_traffic := fun _ => 0
    location_traffic := fun _ => 0
    device_type_traffic := fun _ => 0
    os_traffic := fun _ => 0
    purchase_total_amount := 0
    purchase_count := 0
    error_counts := fun _ => 0
    session_duration_sum := 0
    session_duration_count := 0 }

/-- `counts[k] = counts.get(k, 0) + 1` on a count dict. -/
def bump (f : Json → Nat) (k : Json) : Json → Nat :=
  fun k' => if jeq k' k then f k' + 1 else f k'

/-- The hourly-traffic increment at hour `h`. -/
def bumpHour (f : Fin 24 → Nat) (h : Fin 24) : Fin 24 → Nat :=
  Function.update f h (f h + 1)

/-- Python numeric coercion for `+`: numbers add, booleans count as 1/0,
anything else raises `TypeError`. -/
def toNum : Json → Option Rat
  | .num q => some q
  | .bool b => some (if b then 1 else 0)
  | _ => none

/-- The `try` block updating `hourly_traffic`: a non-string timestamp
(`TypeError`) or an unparseable one (`ValueError`) is caught and the
update is skipped with a warning. -/
def hourlyStep (isoHour : String → Option (Fin 24)) (ts : Json) (a : AggState) :
    AggState :=
  match ts with
  | .str s =>
      match isoHour s with
      | some h => { a with hourly_traffic := bumpHour a.hourly_traffic h }
      | none => a
  | _ => a

/-- The purchase block (`event_type` equal to the string `purchase`).
Indexing `data` raises `KeyError` when the key is absent and `.get`
raises `AttributeError` on a non-dict;
`+= total_amount` raises `TypeError` on a non-numeric amount, in which
case `count` is not incremented either.  The second component is the
escaping exception, if any. -/
def purchaseStep (kvs : List (String × Json)) (et : Json) (a : AggState) :
    AggState × Option String :=
  if jsonIsStr et "purchase" then
    match lookupKey kvs "data" with
    | some (.obj d) =>
        match toNum (dgetD d "total_amount" (.num 0)) with
        | some q =>
            ({ a with purchase_total_amount := a.purchase_total_amount + q,
                      purchase_count := a.purchase_count + 1 }, none)
        | none => (a, some "TypeError: unsupported operand types for +")
    | some _ => (a, some "AttributeError: object has no attribute get")
    | none => (a, some "KeyError: data")
  else (a, none)

/-- The error block (`event_type` equal to the string `error`). -/
def errorStep (kvs : List (String × Json)) (et : Json) (a : AggState) :
    AggState × Option String :=
  if jsonIsStr et "error" then
    match lookupKey kvs "data" with
    | some (.obj d) =>
        ({ a with
             error_counts :=
               bump a.error_counts (dgetD d "error_code" (.str "UNKNOWN_ERROR")) },
         none)
    | some _ => (a, some "AttributeError: object has no attribute get")
    | none => (a, some "KeyError: data")
  else (a, none)

/-- The session block (`event_type` equal to `user_session_end`). -/
def sessionStep (kvs : List (String × Json)) (et : Json) (a : AggState) :
    AggState × Option String :=
  if jsonIsStr et "user_session_end" then
    match lookupKey kvs "data" with
    | some (.obj d) =>
        match toNum (dgetD d "duration_seconds" (.num 0)) with
        | some q =>
            ({ a with session_duration_sum := a.session_duration_sum + q,
                      session_duration_count := a.session_duration_count + 1 }, none)
        | none => (a, some "TypeError: unsupported operand types for +")
    | some _ => (a, some "AttributeError: object has no attribute get")
    | none => (a, some "KeyError: data")
  else (a, none)

/-- The three conditional blocks of `_update_aggregations`, run in source
order; an exception escaping a block stops execution and leaves the
updates already made in place (`realtime_aggregations` is mutated in
place). -/
def condBlocks (kvs : List (String × Json)) (et : Json) (a : AggState) :
    AggState × Option String :=
  match purchaseStep kvs et a with
  | (a6, some e) => (a6, some e)
  | (a6, none) =>
      match errorStep kvs et a6 with
      | (a7, some e) => (a7, some e)
      | (a7, none) => sessionStep kvs et a7

/-- `LogPipeline._update_aggregations`.  The unconditional counters are
updated in source order, then the three conditional blocks run.  The
second component is the escaping exception, if any.  On a non-dict entry
the very first `entry.get` raises. -/
def updateAggregations (isoHour : String → Option (Fin 24)) (entry : Json)
    (a : AggState) : AggState × Option String :=
  match entry with
  | .obj kvs =>
      let a1 := { a with
                    event_type_counts :=
                      bump a.event_type_counts (dgetD kvs "event_type" .null) }
      let a2 := hourlyStep isoHour (dgetD kvs "timestamp" .null) a1
      let a3 := { a2 with
                    location_traffic :=
                      bump a2.location_traffic (dgetD kvs "location" .null) }
      let a4 := { a3 with
                    device_type_traffic :=
                      bump a3.device_type_traffic (dgetD kvs "device_type" .null) }
      let a5 := { a4 with
                    os_traffic := bump a4.os_traffic (dgetD kvs "os_name" .null) }
      condBlocks kvs (dgetD kvs "event_type" .null) a5
  | _ => (a, some "AttributeError: object has no attribute get")

/-- Folding `_update_aggregations` over a list of enriched records; an
escaping exception aborts the run (it would crash the streaming loop). -/
def processEnriched (isoHour : String → Option (Fin 24)) :
    List Json → AggState → AggState × Option String
  | [], a => (a, none)
  | e :: rest, a =>
      match updateAggregations isoHour e a with
      | (a', none) => processEnriched isoHour rest a'
      | (a', some err) => (a', some err)

/-! ## The streaming pipeline loop (`process_logs_streaming`), per line -/

/-- One line handed to the pipeline by `f.readline()`: its text, the
`json.loads` outcome on it, and the processing time used for a failure
record. -/
structure LineInput where
  text : String
  decoded : Except String Json
  now : String

/-- The per-line mutable state of a `LogPipeline`. -/
structure PipelineState where
  parser : ParserState
  agg : AggState
  processed : Nat

/-- The pipeline state built by `LogPipeline.__init__`. -/
def initPipeline : PipelineState := ⟨initParserState, initAgg, 0⟩

/-- The body of the `while True` loop of `process_logs_streaming` for one
line: count it, parse it, and on success enrich and aggregate.  The
Boolean is true when an exception escapes the body (which would kill the
loop). -/
def pipelineStep (isoHour : String → Option (Fin 24)) (inp : LineInput)
    (ps : PipelineState) : PipelineState × Bool :=
  match parse_log_line isoHour inp.now (.line inp.text inp.decoded) ps.parser with
  | (.error _, pst) =>
      ({ ps with processed := ps.processed + 1, parser := pst }, true)
  | (.ok none, pst) =>
      ({ ps with processed := ps.processed + 1, parser := pst }, false)
  | (.ok (some entry), pst) =>
      match enrich_log_entry entry with
      | .error _ => ({ ps with processed := ps.processed + 1, parser := pst }, true)
      | .ok enriched =>
          match updateAggregations isoHour enriched ps.agg with
          | (agg, some _) =>
              ({ ps with processed := ps.processed + 1, parser := pst,
                         agg := agg }, true)
          | (agg, none) =>
              ({ ps with processed := ps.processed + 1, parser := pst,
                         agg := agg }, false)

/-- Running the streaming loop over a sequence of delivered lines,
stopping if an exception escapes the body. -/
def processPipeline (isoHour : String → Option (Fin 24)) :
    List LineInput → PipelineState → PipelineState
  | [], ps => ps
  | inp :: rest, ps =>
      match pipelineStep isoHour inp ps with
      | (ps', true) => ps'
      | (ps', false) => processPipeline isoHour rest ps'

/-- Folding only the parser over a sequence of text lines (the
`LogParser` in isolation, as exercised by C1). -/
def processLines (isoHour : String → Option (Fin 24)) :
    List LineInput → ParserState → ParserState
  | [], st => st
  | inp :: rest, st =>
      processLines isoHour rest
        (parse_log_line isoHour inp.now (.line inp.text inp.decoded) st).2

/-! ## Stream tailer (`process_logs_streaming`, lines 157-173)

The tail loop opens the file, seeks to the end (`f.seek(0, os.SEEK_END)`)
and repeatedly calls `f.readline()`, sleeping when no complete line is
available.  With the single-writer append-only contract (whole lines are
appended atomically), the file is a growing list of lines and the read
position an index into it; waiting for the file to exist beforehand does
not change what is delivered. -/

/-- The tailer state: the file contents as a list of lines, the read
position, and the lines delivered to the loop body so far. -/
structure TailState where
  file : List String
  pos : Nat
  delivered : List String

/-- The state right after open and seek-to-end over `initial` lines of
pre-existing content. -/
def tailInit (initial : List String) : TailState :=
  ⟨initial, initial.length, []⟩

/-- An event interleaved with the tail loop: the producer appends one
complete line, or the loop polls `f.readline()` (delivering the next
line if one is available and doing nothing otherwise). -/
inductive TailEvent where
  | append (l : String) : TailEvent
  | poll : TailEvent

/-- One tailer transition. -/
def tailStep (e : TailEvent) (s : TailState) : TailState :=
  match e with
  | .append l => { s with file := s.file ++ [l] }
  | .poll =>
      if h : s.pos < s.file.length then
        { s with pos := s.pos + 1,
                 delivered := s.delivered ++ [s.file.get ⟨s.pos, h⟩] }
      else s

/-- Running the tailer under a finite interleaving of events. -/
def tailRun (s : TailState) : List TailEvent → TailState
  | [] => s
  | e :: rest => tailRun (tailStep e s) rest

/-- The lines appended by a sequence of events, in order. -/
def appendsOf : List TailEvent → List String
  | [] => []
  | .append l :: rest => l :: appendsOf rest
  | .poll :: rest => appendsOf rest

/-! ## Parser theorems (C1, C2, C7, C8) -/

/-- Per-call counter behaviour of `parse_log_line` on a text line:
exactly one of the two counters is incremented, by exactly one. -/
lemma parse_line_counters (isoHour : String → Option (Fin 24))
    (now text : String) (dec : Except String Json) (st : ParserState) :
    ((parse_log_line isoHour now (.line text dec) st).2.parsed = st.parsed + 1
       ∧ (parse_log_line isoHour now (.line text dec) st).2.failed = st.failed)
    ∨ ((parse_log_line isoHour now (.line text dec) st).2.parsed = st.parsed
       ∧ (parse_log_line isoHour now (.line text dec) st).2.failed = st.failed + 1) := by
  cases dec with
  | error e => exact Or.inr ⟨rfl, rfl⟩
  | ok entry =>
      cases hv : validate_log_entry isoHour entry with
      | error e => simp [parse_log_line, hv, handle_failed_log]
      | ok b =>
          cases b with
          | true => simp [parse_log_line, hv]
          | false => simp [parse_log_line, hv, handle_failed_log]

/-- Counter totals after a run of the parser over a list of lines. -/
lemma processLines_total (isoHour : String → Option (Fin 24))
    (inputs : List LineInput) (st : ParserState) :
    (processLines isoHour inputs st).parsed + (processLines isoHour inputs st).failed
      = st.parsed + st.failed + inputs.length := by
  induction inputs generalizing st with
  | nil => simp [processLines]
  | cons inp rest ih =>
      rw [processLines, ih]
      rcases parse_line_counters isoHour inp.now inp.text inp.decoded st with
        ⟨hp, hf⟩ | ⟨hp, hf⟩ <;> rw [hp, hf] <;> simp <;> omega

/-- C1: after any finite sequence of calls of `parse_log_line` on text
lines, `parsed + failed` equals the number of lines submitted, and every
call increments exactly one of the two counters by exactly one.
(A non-string argument is the concern of C7.) -/
theorem parsed_plus_failed_counts_lines (isoHour : String → Option (Fin 24)) :
    (∀ (now text : String) (dec : Except String Json) (st : ParserState),
       ((parse_log_line isoHour now (.line text dec) st).2.parsed = st.parsed + 1
          ∧ (parse_log_line isoHour now (.line text dec) st).2.failed = st.failed)
       ∨ ((parse_log_line isoHour now (.line text dec) st).2.parsed = st.parsed
          ∧ (parse_log_line isoHour now (.line text dec) st).2.failed = st.failed + 1))
    ∧ (∀ inputs : List LineInput,
         (processLines isoHour inputs initParserState).parsed
           + (processLines isoHour inputs initParserState).failed = inputs.length) := by
  refine ⟨parse_line_counters isoHour, fun inputs => ?_⟩
  have h := processLines_total isoHour inputs initParserState
  simpa [initParserState] using h

/-- C2 (amended): a line whose JSON decode fails is rejected with return
value `None`, the `failed` counter is incremented, `parsed` is untouched,
and the appended `FailedLogRecord` has reason `json_decode_error` (the
source string; the spec calls this class `malformed_json`). -/
theorem malformed_line_recorded (isoHour : String → Option (Fin 24))
    (now text emsg : String) (st : ParserState) :
    parse_log_line isoHour now (.line text (.error emsg)) st
      = (.ok none,
         handle_failed_log st now text "json_decode_error"
           ("Malformed JSON log line: " ++ emsg ++ " - Line: " ++ pyStrip text))
    ∧ (parse_log_line isoHour now (.line text (.error emsg)) st).2.parsed = st.parsed
    ∧ (parse_log_line isoHour now (.line text (.error emsg)) st).2.failed
        = st.failed + 1 :=
  ⟨rfl, rfl, rfl⟩

/-- C2 counterexample: the recorded reason for the malformed line
`not json at all` is the string `json_decode_error`, not
`malformed_json` as the claim states. -/
theorem malformed_reason_not_malformed_json :
    ((parse_log_line (fun _ => none) "2025-07-03T16:30:00"
        (.line "not json at all" (.error "Expecting value: line 1 column 1 (char 0)"))
        initParserState).2.failed_logs.map FailedLogRecord.reason
      = ["json_decode_error"])
    ∧ "json_decode_error" ≠ "malformed_json" := by
  exact ⟨rfl, by decide⟩

/-- C7: `parse_log_line` on a non-string argument does not return: the
`TypeError` from `json.loads` is caught, but the handler itself calls
`line.strip()` and the resulting `AttributeError` propagates to the
caller, with both counters and the failed-log list untouched. -/
theorem parse_nonstring_input_raises (isoHour : String → Option (Fin 24))
    (now : String) (st : ParserState) :
    parse_log_line isoHour now .other st
      = (.error "AttributeError: object has no attribute strip", st) :=
  rfl

/-- C8 (amended): every rejected text line is stored in the appended
record with `original_line = line.strip()` - the stripped text, not the
verbatim text. -/
theorem failed_record_line_stripped (isoHour : String → Option (Fin 24))
    (now text : String) (dec : Except String Json) (st : ParserState)
    (h : (parse_log_line isoHour now (.line text dec) st).1 = .ok none) :
    ∃ r, (parse_log_line isoHour now (.line text dec) st).2.failed_logs
           = st.failed_logs ++ [r] ∧ r.original_line = pyStrip text := by
  cases dec with
  | error e => exact ⟨_, rfl, rfl⟩
  | ok entry =>
      cases hv : validate_log_entry isoHour entry with
      | error e =>
          exact ⟨⟨now, pyStrip text, "unexpected_error",
                  "Unexpected error parsing log line: " ++ e ++ " - Line: " ++
                    pyStrip text⟩,
                 by simp [parse_log_line, hv, handle_failed_log], rfl⟩
      | ok b =>
          cases b with
          | true => simp [parse_log_line, hv] at h
          | false =>
              exact ⟨⟨now, pyStrip text, "validation_failed",
                      "Validation failed for log entry: " ++ text⟩,
                     by simp [parse_log_line, hv, handle_failed_log], rfl⟩

/-- Witness for C8 at a concrete rejected line with surrounding
whitespace. -/
theorem failed_record_line_stripped_witness :
    (parse_log_line (fun _ => none) "t" (.line " x \n" (.error "bad"))
        initParserState).1 = .ok none
    ∧ ∃ r, (parse_log_line (fun _ => none) "t" (.line " x \n" (.error "bad"))
              initParserState).2.failed_logs
             = initParserState.failed_logs ++ [r] ∧ r.original_line = pyStrip " x \n" :=
  ⟨rfl, failed_record_line_stripped (fun _ => none) "t" " x \n" (.error "bad")
          initParserState rfl⟩

/-- C8 counterexample: the line `not json at all` followed by a newline
is stored without that newline, so `original_line` is not the verbatim
submitted text. -/
theorem original_line_not_verbatim :
    ((parse_log_line (fun _ => none) "t"
        (.line "not json at all\n" (.error "Expecting value"))
        initParserState).2.failed_logs.map FailedLogRecord.original_line
      = ["not json at all"])
    ∧ "not json at all" ≠ "not json at all\n" := by
  exact ⟨rfl, by decide⟩

/-! ## Validator characterisation (C6, C10) -/

/-- On a dict, the required-field loop never raises. -/
lemma checkRequired_obj_exists (kvs : List (String × Json))
    (fields : List (String × PyType)) :
    ∃ b, checkRequired (.obj kvs) fields = .ok b := by
  induction fields with
  | nil => exact ⟨true, rfl⟩
  | cons ft rest ih =>
      obtain ⟨f, t⟩ := ft
      cases hlk : lookupKey kvs f with
      | none => exact ⟨false, by simp [checkRequired, pyContains, hlk]⟩
      | some v =>
          by_cases hi : isinstanceOf v t
          · obtain ⟨b, hb⟩ := ih
            exact ⟨b, by simp [checkRequired, pyContains, pyGetItem, hlk, hi, hb]⟩
          · exact ⟨false, by simp [checkRequired, pyContains, pyGetItem, hlk, hi]⟩

/-- On a dict, the required-field loop returns `True` exactly when every
listed field is present with the expected type. -/
lemma checkRequired_obj_true_iff (kvs : List (String × Json))
    (fields : List (String × PyType)) :
    checkRequired (.obj kvs) fields = .ok true
      ↔ ∀ ft ∈ fields, ∃ v, lookupKey kvs ft.1 = some v ∧ isinstanceOf v ft.2 = true := by
  induction fields with
  | nil => simp [checkRequired]
  | cons ft rest ih =>
      obtain ⟨f, t⟩ := ft
      cases hlk : lookupKey kvs f with
      | none =>
          constructor
          · intro h; simp [checkRequired, pyContains, hlk] at h
          · intro h
            obtain ⟨v, hv, _⟩ := h (f, t) (List.mem_cons_self _ _)
            simp [hlk] at hv
      | some v =>
          by_cases hi : isinstanceOf v t
          · rw [show checkRequired (.obj kvs) ((f, t) :: rest)
                  = checkRequired (.obj kvs) rest from by
                simp [checkRequired, pyContains, pyGetItem, hlk, hi]]
            rw [ih]
            constructor
            · intro h ft hft
              rcases List.mem_cons.mp hft with rfl | hmem
              · exact ⟨v, hlk, hi⟩
              · exact h ft hmem
            · intro h ft hft
              exact h ft (List.mem_cons_of_mem _ hft)
          · constructor
            · intro h; simp [checkRequired, pyContains, pyGetItem, hlk, hi] at h
            · intro h
              obtain ⟨w, hw, hwi⟩ := h (f, t) (List.mem_cons_self _ _)
              rw [hlk] at hw
              cases hw
              exact absurd hwi (by simp [hi])

/-- A dict missing some required field fails validation with `False`
(no exception). -/
lemma validate_obj_missing_false (isoHour : String → Option (Fin 24))
    (kvs : List (String × Json))
    (h : ∃ ft ∈ requiredFields, lookupKey kvs ft.1 = none) :
    validate_log_entry isoHour (.obj kvs) = .ok false := by
  obtain ⟨b, hb⟩ := checkRequired_obj_exists kvs requiredFields
  cases b with
  | false => simp [validate_log_entry, hb]
  | true =>
      obtain ⟨ft, hmem, hnone⟩ := h
      obtain ⟨v, hv, _⟩ := (checkRequired_obj_true_iff kvs requiredFields).mp hb ft hmem
      rw [hnone] at hv
      cases hv

/-- C6 (amended): a valid JSON object missing a required field is
rejected and recorded with reason `validation_failed`, but the stored
diagnostic message is exactly `Validation failed for log entry: ` plus
the raw line; the missing field name is written only to a debug log, not
to the stored message. -/
theorem missing_field_message (isoHour : String → Option (Fin 24))
    (now text : String) (kvs : List (String × Json)) (st : ParserState)
    (h : ∃ ft ∈ requiredFields, lookupKey kvs ft.1 = none) :
    parse_log_line isoHour now (.line text (.ok (.obj kvs))) st
      = (.ok none,
         handle_failed_log st now text "validation_failed"
           ("Validation failed for log entry: " ++ text)) := by
  simp [parse_log_line, validate_obj_missing_false isoHour kvs h]

/-- Witness for C6 at the empty JSON object. -/
theorem missing_field_message_witness :
    (∃ ft ∈ requiredFields, lookupKey ([] : List (String × Json)) ft.1 = none)
    ∧ parse_log_line (fun _ => none) "t" (.line "\x7b\x7d" (.ok (.obj [])))
        initParserState
        = (.ok none,
           handle_failed_log initParserState "t" "\x7b\x7d" "validation_failed"
             ("Validation failed for log entry: " ++ "\x7b\x7d")) := by
  have h : ∃ ft ∈ requiredFields, lookupKey ([] : List (String × Json)) ft.1 = none :=
    ⟨("timestamp", PyType.str), by decide, rfl⟩
  exact ⟨h, missing_field_message (fun _ => none) "t" "\x7b\x7d" [] initParserState h⟩

/-- C6 counterexample: for the empty-object line, every required field is
missing, yet the stored message does not contain the name of the first
missing field, `timestamp`. -/
theorem missing_field_name_not_in_message :
    ((parse_log_line (fun _ => none) "t" (.line "\x7b\x7d" (.ok (.obj [])))
        initParserState).2.failed_logs.map FailedLogRecord.message
      = ["Validation failed for log entry: \x7b\x7d"])
    ∧ strContains "Validation failed for log entry: \x7b\x7d" "timestamp" = false := by
  exact ⟨rfl, by decide⟩

/-- Scalar JSON values (`None`, booleans, numbers). -/
def jsonNotIterable : Json → Bool
  | .null => true
  | .bool _ => true
  | .num _ => true
  | _ => false

/-- The membership test raises on a scalar decoded value. -/
lemma validate_scalar_error (isoHour : String → Option (Fin 24)) (v : Json)
    (h : jsonNotIterable v = true) :
    validate_log_entry isoHour v = .error "TypeError: argument is not iterable" := by
  cases v with
  | null => rfl
  | bool b => rfl
  | num q => rfl
  | str s => simp [jsonNotIterable] at h
  | arr xs => simp [jsonNotIterable] at h
  | obj kvs => simp [jsonNotIterable] at h

/-- An array without the element `"timestamp"` fails the first membership
test cleanly. -/
lemma validate_arr_false (isoHour : String → Option (Fin 24)) (xs : List Json)
    (h : (xs.any fun v => jsonIsStr v "timestamp") = false) :
    validate_log_entry isoHour (.arr xs) = .ok false := by
  simp [validate_log_entry, checkRequired, requiredFields, pyContains, h]

/-- A string without the substring `timestamp` fails the first membership
test cleanly. -/
lemma validate_str_false (isoHour : String → Option (Fin 24)) (s : String)
    (h : strContains s "timestamp" = false) :
    validate_log_entry isoHour (.str s) = .ok false := by
  simp [validate_log_entry, checkRequired, requiredFields, pyContains, h]

/-- An array with an element equal to the string `timestamp` passes the
membership test and then the list indexing by a string raises. -/
lemma validate_arr_member_error (isoHour : String → Option (Fin 24))
    (xs : List Json) (h : (xs.any fun v => jsonIsStr v "timestamp") = true) :
    validate_log_entry isoHour (.arr xs)
      = .error "TypeError: indices must be integers" := by
  simp [validate_log_entry, checkRequired, requiredFields, pyContains,
        pyGetItem, h]

/-- A string containing `timestamp` as a substring passes the membership
test and then the string indexing by a string raises. -/
lemma validate_str_member_error (isoHour : String → Option (Fin 24))
    (s : String) (h : strContains s "timestamp" = true) :
    validate_log_entry isoHour (.str s)
      = .error "TypeError: indices must be integers" := by
  simp [validate_log_entry, checkRequired, requiredFields, pyContains,
        pyGetItem, h]

/-- C10 (amended): a line decoding to a scalar (`None`, boolean, number)
is recorded with reason `unexpected_error`, because the membership test
raises `TypeError` on it.  A line decoding to an array or string is
recorded with reason `validation_failed` exactly when its membership test
for the first required field `timestamp` fails (array with no element
equal to the string, string not containing the substring); whenever that
membership test succeeds, the subsequent indexing by a string raises
`TypeError` and the reason is `unexpected_error` instead - universally,
for every such array and string. -/
theorem non_object_json_reasons (isoHour : String → Option (Fin 24))
    (now text : String) (st : ParserState) :
    (∀ v : Json, jsonNotIterable v = true →
       (parse_log_line isoHour now (.line text (.ok v)) st).2.failed_logs.map
           FailedLogRecord.reason
         = st.failed_logs.map FailedLogRecord.reason ++ ["unexpected_error"])
    ∧ (∀ xs : List Json, (xs.any fun v => jsonIsStr v "timestamp") = false →
       (parse_log_line isoHour now (.line text (.ok (.arr xs))) st).2.failed_logs.map
           FailedLogRecord.reason
         = st.failed_logs.map FailedLogRecord.reason ++ ["validation_failed"])
    ∧ (∀ s : String, strContains s "timestamp" = false →
       (parse_log_line isoHour now (.line text (.ok (.str s))) st).2.failed_logs.map
           FailedLogRecord.reason
         = st.failed_logs.map FailedLogRecord.reason ++ ["validation_failed"])
    ∧ (∀ xs : List Json, (xs.any fun v => jsonIsStr v "timestamp") = true →
       (parse_log_line isoHour now (.line text (.ok (.arr xs))) st).2.failed_logs.map
           FailedLogRecord.reason
         = st.failed_logs.map FailedLogRecord.reason ++ ["unexpected_error"])
    ∧ (∀ s : String, strContains s "timestamp" = true →
       (parse_log_line isoHour now (.line text (.ok (.str s))) st).2.failed_logs.map
           FailedLogRecord.reason
         = st.failed_logs.map FailedLogRecord.reason ++ ["unexpected_error"]) := by
  refine ⟨fun v hv => ?_, fun xs hxs => ?_, fun s hs => ?_,
          fun xs hxs => ?_, fun s hs => ?_⟩
  · simp [parse_log_line, validate_scalar_error isoHour v hv, handle_failed_log]
  · simp [parse_log_line, validate_arr_false isoHour xs hxs, handle_failed_log]
  · simp [parse_log_line, validate_str_false isoHour s hs, handle_failed_log]
  · simp [parse_log_line, validate_arr_member_error isoHour xs hxs,
          handle_failed_log]
  · simp [parse_log_line, validate_str_member_error isoHour s hs,
          handle_failed_log]

/-- Witness for C10 at concrete scalar, array and string lines, covering
both the membership-failure and the membership-success cases. -/
theorem non_object_json_reasons_witness :
    ((parse_log_line (fun _ => none) "t" (.line "null" (.ok .null))
        initParserState).2.failed_logs.map FailedLogRecord.reason
      = ["unexpected_error"])
    ∧ ((parse_log_line (fun _ => none) "t" (.line "[5]" (.ok (.arr [.num 5])))
        initParserState).2.failed_logs.map FailedLogRecord.reason
      = ["validation_failed"])
    ∧ ((parse_log_line (fun _ => none) "t" (.line "\"abc\"" (.ok (.str "abc")))
        initParserState).2.failed_logs.map FailedLogRecord.reason
      = ["validation_failed"])
    ∧ ((parse_log_line (fun _ => none) "t"
        (.line "[1, \"timestamp\"]" (.ok (.arr [.num 1, .str "timestamp"])))
        initParserState).2.failed_logs.map FailedLogRecord.reason
      = ["unexpected_error"])
    ∧ ((parse_log_line (fun _ => none) "t"
        (.line "\"a timestamp here\"" (.ok (.str "a timestamp here")))
        initParserState).2.failed_logs.map FailedLogRecord.reason
      = ["unexpected_error"]) := by
  refine ⟨?_, ?_, ?_, ?_, ?_⟩
  · simpa [initParserState] using
      (non_object_json_reasons (fun _ => none) "t" "null" initParserState).1
        .null (by decide)
  · simpa [initParserState] using
      (non_object_json_reasons (fun _ => none) "t" "[5]" initParserState).2.1
        [.num 5] (by decide)
  · simpa [initParserState] using
      (non_object_json_reasons (fun _ => none) "t" "\"abc\"" initParserState).2.2.1
        "abc" (by decide)
  · simpa [initParserState] using
      (non_object_json_reasons (fun _ => none) "t" "[1, \"timestamp\"]"
          initParserState).2.2.2.1
        [.num 1, .str "timestamp"] (by decide)
  · simpa [initParserState] using
      (non_object_json_reasons (fun _ => none) "t" "\"a timestamp here\""
          initParserState).2.2.2.2
        "a timestamp here" (by decide)

/-- C10 counterexample: a line decoding to the JSON array containing the
string `timestamp` is recorded with reason `unexpected_error`, not
`validation_failed`, because the membership test succeeds and the
subsequent list indexing by a string raises `TypeError`. -/
theorem array_with_timestamp_unexpected :
    ((parse_log_line (fun _ => none) "t"
        (.line "[\"timestamp\"]" (.ok (.arr [.str "timestamp"])))
        initParserState).2.failed_logs.map FailedLogRecord.reason
      = ["unexpected_error"])
    ∧ "unexpected_error" ≠ "validation_failed" := by
  exact ⟨by decide, by decide⟩

/-! ## Aggregation characterisation (C4, C5) -/

/-- The hourly-traffic map after the hourly `try` block, as a function of
the timestamp value. -/
def hourlyVal (isoHour : String → Option (Fin 24)) (ts : Json)
    (f : Fin 24 → Nat) : Fin 24 → Nat :=
  match ts with
  | .str s =>
      match isoHour s with
      | some h => bumpHour f h
      | none => f
  | _ => f

/-- The amount the purchase block adds, when it completes:
`some q` for a purchase record whose `data` dict carries a numeric
`total_amount` (default `0.0` when absent), `none` when the record is not
a purchase or the block raises. -/
def purchaseAddKVs (kvs : List (String × Json)) : Option Rat :=
  if jsonIsStr (dgetD kvs "event_type" .null) "purchase" then
    match lookupKey kvs "data" with
    | some (.obj d) => toNum (dgetD d "total_amount" (.num 0))
    | _ => none
  else none

/-- The duration the session block adds, when it completes. -/
def sessionAddKVs (kvs : List (String × Json)) : Option Rat :=
  if jsonIsStr (dgetD kvs "event_type" .null) "user_session_end" then
    match lookupKey kvs "data" with
    | some (.obj d) => toNum (dgetD d "duration_seconds" (.num 0))
    | _ => none
  else none

/-- Whether the entry has a `data` field holding a dict. -/
def dataIsDict (kvs : List (String × Json)) : Bool :=
  match lookupKey kvs "data" with
  | some (.obj _) => true
  | _ => false

/-- The error-count map after the error block. -/
def errorValKVs (kvs : List (String × Json)) (f : Json → Nat) : Json → Nat :=
  if jsonIsStr (dgetD kvs "event_type" .null) "error" then
    match lookupKey kvs "data" with
    | some (.obj d) => bump f (dgetD d "error_code" (.str "UNKNOWN_ERROR"))
    | _ => f
  else f

/-- Whether all three conditional blocks of `_update_aggregations`
complete without raising on this entry. -/
def condOkKVs (kvs : List (String × Json)) : Bool :=
  (!(jsonIsStr (dgetD kvs "event_type" .null) "purchase")
      || (purchaseAddKVs kvs).isSome)
  && (!(jsonIsStr (dgetD kvs "event_type" .null) "error")
      || dataIsDict kvs)
  && (!(jsonIsStr (dgetD kvs "event_type" .null) "user_session_end")
      || (sessionAddKVs kvs).isSome)

/-- An entry on which `_update_aggregations` runs to completion. -/
def aggOk : Json → Bool
  | .obj kvs => condOkKVs kvs
  | _ => false

/-- Whether an entry triggers the purchase block. -/
def isPurchase : Json → Bool
  | .obj kvs => jsonIsStr (dgetD kvs "event_type" .null) "purchase"
  | _ => false

/-- The purchase amount added for an entry. -/
def purchaseAdd : Json → Option Rat
  | .obj kvs => purchaseAddKVs kvs
  | _ => none

/-- The session duration added for an entry. -/
def sessionAdd : Json → Option Rat
  | .obj kvs => sessionAddKVs kvs
  | _ => none

/-- The amount a purchase record contributes to `total_amount`. -/
def purchaseAmount (e : Json) : Rat :=
  (purchaseAdd e).getD 0

/-- A true `jsonIsStr` test identifies the value. -/
lemma jsonIsStr_eq {et : Json} {s : String} (h : jsonIsStr et s = true) :
    et = .str s := by
  cases et <;> simp [jsonIsStr] at h ⊢
  exact h

/-- The hourly block only rewrites `hourly_traffic`. -/
lemma hourlyStep_spec (isoHour : String → Option (Fin 24)) (ts : Json)
    (a : AggState) :
    hourlyStep isoHour ts a
      = { a with hourly_traffic := hourlyVal isoHour ts a.hourly_traffic } := by
  unfold hourlyStep hourlyVal
  repeat' split
  all_goals rfl

/-- The purchase block: resulting purchase fields and raise condition. -/
lemma purchaseStep_spec (kvs : List (String × Json)) (a : AggState) :
    (purchaseStep kvs (dgetD kvs "event_type" .null) a).1
      = { a with
            purchase_total_amount :=
              a.purchase_total_amount + (purchaseAddKVs kvs).getD 0,
            purchase_count :=
              a.purchase_count + (if (purchaseAddKVs kvs).isSome then 1 else 0) }
    ∧ ((purchaseStep kvs (dgetD kvs "event_type" .null) a).2 = none
        ↔ (!(jsonIsStr (dgetD kvs "event_type" .null) "purchase")
            || (purchaseAddKVs kvs).isSome) = true) := by
  unfold purchaseStep
  repeat' split
  all_goals simp_all [purchaseAddKVs]

/-- The error block: resulting error counts and raise condition. -/
lemma errorStep_spec (kvs : List (String × Json)) (a : AggState) :
    (errorStep kvs (dgetD kvs "event_type" .null) a).1
      = { a with error_counts := errorValKVs kvs a.error_counts }
    ∧ ((errorStep kvs (dgetD kvs "event_type" .null) a).2 = none
        ↔ (!(jsonIsStr (dgetD kvs "event_type" .null) "error")
            || dataIsDict kvs) = true) := by
  unfold errorStep
  repeat' split
  all_goals simp_all [errorValKVs, dataIsDict]

/-- The session block: resulting session fields and raise condition. -/
lemma sessionStep_spec (kvs : List (String × Json)) (a : AggState) :
    (sessionStep kvs (dgetD kvs "event_type" .null) a).1
      = { a with
            session_duration_sum :=
              a.session_duration_sum + (sessionAddKVs kvs).getD 0,
            session_duration_count :=
              a.session_duration_count + (if (sessionAddKVs kvs).isSome then 1 else 0) }
    ∧ ((sessionStep kvs (dgetD kvs "event_type" .null) a).2 = none
        ↔ (!(jsonIsStr (dgetD kvs "event_type" .null) "user_session_end")
            || (sessionAddKVs kvs).isSome) = true) := by
  unfold sessionStep
  repeat' split
  all_goals simp_all [sessionAddKVs]

/-- The conditional blocks: resulting fields and no-raise condition, for
any incoming state (in particular regardless of which block raises). -/
lemma condBlocks_spec (kvs : List (String × Json)) (b : AggState) :
    (condBlocks kvs (dgetD kvs "event_type" .null) b).1
      = { b with
            purchase_total_amount :=
              b.purchase_total_amount + (purchaseAddKVs kvs).getD 0,
            purchase_count :=
              b.purchase_count + (if (purchaseAddKVs kvs).isSome then 1 else 0),
            error_counts := errorValKVs kvs b.error_counts,
            session_duration_sum :=
              b.session_duration_sum + (sessionAddKVs kvs).getD 0,
            session_duration_count :=
              b.session_duration_count
                + (if (sessionAddKVs kvs).isSome then 1 else 0) }
    ∧ ((condBlocks kvs (dgetD kvs "event_type" .null) b).2 = none
        ↔ condOkKVs kvs = true) := by
  rcases hp : purchaseStep kvs (dgetD kvs "event_type" .null) b with ⟨a6, pe⟩
  have h1 : a6 = { b with
      purchase_total_amount :=
        b.purchase_total_amount + (purchaseAddKVs kvs).getD 0,
      purchase_count :=
        b.purchase_count + (if (purchaseAddKVs kvs).isSome then 1 else 0) } := by
    have h := (purchaseStep_spec kvs b).1
    rw [hp] at h
    exact h
  have h2 : pe = none
      ↔ (!(jsonIsStr (dgetD kvs "event_type" .null) "purchase")
          || (purchaseAddKVs kvs).isSome) = true := by
    have h := (purchaseStep_spec kvs b).2
    rw [hp] at h
    exact h
  cases pe with
  | some e =>
      have hc1 : (!(jsonIsStr (dgetD kvs "event_type" .null) "purchase")
          || (purchaseAddKVs kvs).isSome) = false := by
        cases hcc : (!(jsonIsStr (dgetD kvs "event_type" .null) "purchase")
            || (purchaseAddKVs kvs).isSome) with
        | false => rfl
        | true => exact absurd (h2.mpr hcc) (by simp)
      have hcc := hc1
      simp only [Bool.or_eq_false_iff, Bool.not_eq_false'] at hcc
      obtain ⟨hpt, hnone⟩ := hcc
      have hnone' : purchaseAddKVs kvs = none := by
        cases hx : purchaseAddKVs kvs with
        | none => rfl
        | some q => rw [hx] at hnone; simp at hnone
      have het : dgetD kvs "event_type" .null = .str "purchase" := jsonIsStr_eq hpt
      constructor
      · show (condBlocks kvs (dgetD kvs "event_type" .null) b).1 = _
        simp only [condBlocks, hp]
        rw [h1]
        have he : errorValKVs kvs b.error_counts = b.error_counts := by
          simp [errorValKVs, het, jsonIsStr]
        have hs : sessionAddKVs kvs = none := by
          simp [sessionAddKVs, het, jsonIsStr]
        simp [he, hs, hnone']
      · show (condBlocks kvs (dgetD kvs "event_type" .null) b).2 = none ↔ _
        simp only [condBlocks, hp]
        simp [condOkKVs, hc1]
  | none =>
      have hc1 := h2.mp rfl
      rcases he : errorStep kvs (dgetD kvs "event_type" .null) a6 with ⟨a7, ee⟩
      have e1 : a7 = { a6 with error_counts := errorValKVs kvs a6.error_counts } := by
        have h := (errorStep_spec kvs a6).1
        rw [he] at h
        exact h
      have e2 : ee = none
          ↔ (!(jsonIsStr (dgetD kvs "event_type" .null) "error")
              || dataIsDict kvs) = true := by
        have h := (errorStep_spec kvs a6).2
        rw [he] at h
        exact h
      cases ee with
      | some e =>
          have hc2 : (!(jsonIsStr (dgetD kvs "event_type" .null) "error")
              || dataIsDict kvs) = false := by
            cases hcc : (!(jsonIsStr (dgetD kvs "event_type" .null) "error")
                || dataIsDict kvs) with
            | false => rfl
            | true => exact absurd (e2.mpr hcc) (by simp)
          have hcc := hc2
          simp only [Bool.or_eq_false_iff, Bool.not_eq_false'] at hcc
          obtain ⟨hcet, _⟩ := hcc
          have het : dgetD kvs "event_type" .null = .str "error" := jsonIsStr_eq hcet
          constructor
          · show (condBlocks kvs (dgetD kvs "event_type" .null) b).1 = _
            simp only [condBlocks, hp, he]
            rw [e1, h1]
            have hs : sessionAddKVs kvs = none := by
              simp [sessionAddKVs, het, jsonIsStr]
            simp [hs]
          · show (condBlocks kvs (dgetD kvs "event_type" .null) b).2 = none ↔ _
            simp only [condBlocks, hp, he]
            simp [condOkKVs, hc2]
      | none =>
          have hc2 := e2.mp rfl
          have s1 := (sessionStep_spec kvs a7).1
          have s2 := (sessionStep_spec kvs a7).2
          constructor
          · show (condBlocks kvs (dgetD kvs "event_type" .null) b).1 = _
            simp only [condBlocks, hp, he]
            rw [s1, e1, h1]
          · show (condBlocks kvs (dgetD kvs "event_type" .null) b).2 = none ↔ _
            simp only [condBlocks, hp, he]
            rw [s2]
            simp [condOkKVs, hc1, hc2]

/-- Full characterisation of `_update_aggregations` on a dict entry:
the resulting state, field by field, and the condition under which no
exception escapes. -/
lemma updateAggregations_obj_spec (isoHour : String → Option (Fin 24))
    (kvs : List (String × Json)) (a : AggState) :
    (updateAggregations isoHour (.obj kvs) a).1
      = { a with
            event_type_counts :=
              bump a.event_type_counts (dgetD kvs "event_type" .null),
            hourly_traffic :=
              hourlyVal isoHour (dgetD kvs "timestamp" .null) a.hourly_traffic,
            location_traffic :=
              bump a.location_traffic (dgetD kvs "location" .null),
            device_type_traffic :=
              bump a.device_type_traffic (dgetD kvs "device_type" .null),
            os_traffic := bump a.os_traffic (dgetD kvs "os_name" .null),
            purchase_total_amount :=
              a.purchase_total_amount + (purchaseAddKVs kvs).getD 0,
            purchase_count :=
              a.purchase_count + (if (purchaseAddKVs kvs).isSome then 1 else 0),
            error_counts := errorValKVs kvs a.error_counts,
            session_duration_sum :=
              a.session_duration_sum + (sessionAddKVs kvs).getD 0,
            session_duration_count :=
              a.session_duration_count
                + (if (sessionAddKVs kvs).isSome then 1 else 0) }
    ∧ ((updateAggregations isoHour (.obj kvs) a).2 = none
        ↔ condOkKVs kvs = true) := by
  constructor
  · simp only [updateAggregations]
    rw [hourlyStep_spec]
    exact (condBlocks_spec kvs _).1
  · simp only [updateAggregations]
    rw [hourlyStep_spec]
    exact (condBlocks_spec kvs _).2

/-- A single completed update: purchase fields move exactly by the
purchase contribution. -/
lemma update_aggOk (isoHour : String → Option (Fin 24)) (e : Json) (a : AggState)
    (hok : aggOk e = true) :
    ∃ a', updateAggregations isoHour e a = (a', none)
      ∧ a'.purchase_total_amount
          = a.purchase_total_amount + (if isPurchase e then purchaseAmount e else 0)
      ∧ a'.purchase_count = a.purchase_count + (if isPurchase e then 1 else 0) := by
  cases e with
  | obj kvs =>
      obtain ⟨h1, h2⟩ := updateAggregations_obj_spec isoHour kvs a
      have hn : (updateAggregations isoHour (.obj kvs) a).2 = none :=
        h2.mpr (by simpa [aggOk] using hok)
      refine ⟨(updateAggregations isoHour (.obj kvs) a).1,
              Prod.ext_iff.mpr ⟨rfl, hn⟩, ?_, ?_⟩
      · rw [h1]
        cases hP : jsonIsStr (dgetD kvs "event_type" Json.null) "purchase" with
        | false =>
            have hx : purchaseAddKVs kvs = none := by simp [purchaseAddKVs, hP]
            simp [isPurchase, hP, hx]
        | true =>
            simp [isPurchase, hP, purchaseAmount, purchaseAdd]
      · rw [h1]
        cases hP : jsonIsStr (dgetD kvs "event_type" Json.null) "purchase" with
        | false =>
            have hx : purchaseAddKVs kvs = none := by simp [purchaseAddKVs, hP]
            simp [isPurchase, hP, hx]
        | true =>
            have hc := hok
            simp only [aggOk, condOkKVs, hP, Bool.not_true, Bool.false_or,
              Bool.and_eq_true] at hc
            simp [isPurchase, hP, hc.1.1]
  | null => simp [aggOk] at hok
  | bool b => simp [aggOk] at hok
  | num q => simp [aggOk] at hok
  | str s => simp [aggOk] at hok
  | arr xs => simp [aggOk] at hok

/-- A non-purchase entry never changes the purchase summary, whether or
not the update raises. -/
lemma update_nonpurchase (isoHour : String → Option (Fin 24)) (e : Json)
    (b : AggState) (hP : isPurchase e = false) :
    (updateAggregations isoHour e b).1.purchase_total_amount
        = b.purchase_total_amount
    ∧ (updateAggregations isoHour e b).1.purchase_count = b.purchase_count := by
  cases e with
  | obj kvs =>
      obtain ⟨h1, -⟩ := updateAggregations_obj_spec isoHour kvs b
      simp only [isPurchase] at hP
      have hx : purchaseAddKVs kvs = none := by simp [purchaseAddKVs, hP]
      rw [h1]
      simp [hx]
  | null => exact ⟨rfl, rfl⟩
  | bool b' => exact ⟨rfl, rfl⟩
  | num q => exact ⟨rfl, rfl⟩
  | str s => exact ⟨rfl, rfl⟩
  | arr xs => exact ⟨rfl, rfl⟩

/-- Purchase totals over a whole run of updates. -/
lemma processEnriched_purchase (isoHour : String → Option (Fin 24))
    (entries : List Json) (a : AggState) (h : ∀ e ∈ entries, aggOk e = true) :
    (processEnriched isoHour entries a).2 = none
    ∧ (processEnriched isoHour entries a).1.purchase_total_amount
        = a.purchase_total_amount
            + ((entries.filter isPurchase).map purchaseAmount).sum
    ∧ (processEnriched isoHour entries a).1.purchase_count
        = a.purchase_count + (entries.filter isPurchase).length := by
  induction entries generalizing a with
  | nil => simp [processEnriched]
  | cons e rest ih =>
      obtain ⟨a', hu, hpt, hpc⟩ :=
        update_aggOk isoHour e a (h e (List.mem_cons_self _ _))
      obtain ⟨ihn, ihpt, ihpc⟩ :=
        ih a' (fun x hx => h x (List.mem_cons_of_mem _ hx))
      rw [processEnriched, hu]
      refine ⟨ihn, ?_, ?_⟩
      · rw [ihpt, hpt]
        cases hP : isPurchase e with
        | false => simp [List.filter_cons, hP]
        | true => simp [List.filter_cons, hP]; ring
      · rw [ihpc, hpc]
        cases hP : isPurchase e with
        | false => simp [List.filter_cons, hP]
        | true => simp [List.filter_cons, hP]; ring

/-- C4: over any run of the aggregation update on records for which the
update completes, `purchase_summary.total_amount` grows by exactly the sum
of the (exact, rational) `data.total_amount` values of the purchase
records, `purchase_summary.count` grows by their number, and records of
other event types never change either purchase field. -/
theorem purchase_summary_totals (isoHour : String → Option (Fin 24))
    (entries : List Json) (a : AggState) (h : ∀ e ∈ entries, aggOk e = true) :
    (processEnriched isoHour entries a).2 = none
    ∧ (processEnriched isoHour entries a).1.purchase_total_amount
        = a.purchase_total_amount
            + ((entries.filter isPurchase).map purchaseAmount).sum
    ∧ (processEnriched isoHour entries a).1.purchase_count
        = a.purchase_count + (entries.filter isPurchase).length
    ∧ ∀ (e : Json) (b : AggState), isPurchase e = false →
        (updateAggregations isoHour e b).1.purchase_total_amount
            = b.purchase_total_amount
        ∧ (updateAggregations isoHour e b).1.purchase_count = b.purchase_count := by
  obtain ⟨h1, h2, h3⟩ := processEnriched_purchase isoHour entries a h
  exact ⟨h1, h2, h3, fun e b hP => update_nonpurchase isoHour e b hP⟩

/-- A purchase record with amount 10. -/
def purchaseEntryA : Json :=
  .obj [("event_type", .str "purchase"),
        ("data", .obj [("total_amount", .num 10)])]

/-- A non-purchase record. -/
def pageViewEntry : Json :=
  .obj [("event_type", .str "page_view"), ("data", .obj [])]

/-- A purchase record with amount 5. -/
def purchaseEntryB : Json :=
  .obj [("event_type", .str "purchase"),
        ("data", .obj [("total_amount", .num 5)])]

/-- A concrete mixed sequence of enriched records. -/
def witnessEntries : List Json := [purchaseEntryA, pageViewEntry, purchaseEntryB]

/-- Witness for C4: two purchases of 10 and 5 among three records yield
total 15 and count 2. -/
theorem purchase_summary_totals_witness :
    (∀ e ∈ witnessEntries, aggOk e = true)
    ∧ (processEnriched (fun _ => none) witnessEntries initAgg).1.purchase_total_amount
        = 15
    ∧ (processEnriched (fun _ => none) witnessEntries initAgg).1.purchase_count = 2 := by
  have h : ∀ e ∈ witnessEntries, aggOk e = true := by decide
  obtain ⟨-, hpt, hpc, -⟩ :=
    purchase_summary_totals (fun _ => none) witnessEntries initAgg h
  refine ⟨h, ?_, ?_⟩
  · rw [hpt]
    simp [witnessEntries, purchaseEntryA, purchaseEntryB, pageViewEntry,
          isPurchase, purchaseAmount, purchaseAdd, purchaseAddKVs, dgetD,
          lookupKey, jsonIsStr, toNum, initAgg, List.filter]
    norm_num
  · rw [hpc]
    simp [witnessEntries, purchaseEntryA, purchaseEntryB, pageViewEntry,
          isPurchase, purchaseAddKVs, dgetD, lookupKey, jsonIsStr, initAgg,
          List.filter]

/-- A count bump never decreases any entry of the map. -/
lemma bump_le (f : Json → Nat) (k k' : Json) : f k' ≤ bump f k k' := by
  unfold bump
  split <;> omega

/-- The hourly bump never decreases any hour. -/
lemma bumpHour_le (f : Fin 24 → Nat) (h k : Fin 24) : f k ≤ bumpHour f h k := by
  unfold bumpHour
  rw [Function.update_apply]
  split
  · next heq => subst heq; omega
  · omega

/-- The hourly block never decreases any hour. -/
lemma hourlyVal_le (isoHour : String → Option (Fin 24)) (ts : Json)
    (f : Fin 24 → Nat) (k : Fin 24) : f k ≤ hourlyVal isoHour ts f k := by
  cases ts with
  | str s =>
      cases hio : isoHour s with
      | some h2 =>
          simp only [hourlyVal, hio]
          exact bumpHour_le f h2 k
      | none => simp [hourlyVal, hio]
  | null => simp [hourlyVal]
  | bool b => simp [hourlyVal]
  | num q => simp [hourlyVal]
  | arr xs => simp [hourlyVal]
  | obj kvs => simp [hourlyVal]

/-- The error block never decreases any error count. -/
lemma errorValKVs_le (kvs : List (String × Json)) (f : Json → Nat) (k : Json) :
    f k ≤ errorValKVs kvs f k := by
  by_cases he : jsonIsStr (dgetD kvs "event_type" .null) "error" = true
  · cases hlk : lookupKey kvs "data" with
    | some v =>
        cases v with
        | obj d =>
            simp only [errorValKVs, he, hlk, if_true]
            exact bump_le f _ k
        | null => simp [errorValKVs, he, hlk]
        | bool b => simp [errorValKVs, he, hlk]
        | num q => simp [errorValKVs, he, hlk]
        | str s => simp [errorValKVs, he, hlk]
        | arr xs => simp [errorValKVs, he, hlk]
    | none => simp [errorValKVs, he, hlk]
  · simp [errorValKVs, he]

/-- C5 (amended): every occurrence counter of the aggregation state
(event type, hourly, location, device, OS, purchase count, error counts,
session count) is non-negative and non-decreasing across every single
update, unconditionally - including updates whose `data` carries
arbitrary (even negative or non-numeric) values and updates a conditional
block aborts with an exception.  The two accumulators
`purchase_summary.total_amount` and `session_duration_sum` are
non-decreasing, and preserve non-negativity, exactly under the extra
condition that the contribution the record makes is a non-negative
number (which an arbitrary `data` value does not guarantee - see the
counterexample). -/
theorem aggregation_counters_monotone (isoHour : String → Option (Fin 24))
    (e : Json) (a : AggState) :
    ((∀ k, a.event_type_counts k
        ≤ (updateAggregations isoHour e a).1.event_type_counts k)
     ∧ (∀ h, a.hourly_traffic h
        ≤ (updateAggregations isoHour e a).1.hourly_traffic h)
     ∧ (∀ k, a.location_traffic k
        ≤ (updateAggregations isoHour e a).1.location_traffic k)
     ∧ (∀ k, a.device_type_traffic k
        ≤ (updateAggregations isoHour e a).1.device_type_traffic k)
     ∧ (∀ k, a.os_traffic k ≤ (updateAggregations isoHour e a).1.os_traffic k)
     ∧ a.purchase_count ≤ (updateAggregations isoHour e a).1.purchase_count
     ∧ (∀ k, a.error_counts k
        ≤ (updateAggregations isoHour e a).1.error_counts k)
     ∧ a.session_duration_count
        ≤ (updateAggregations isoHour e a).1.session_duration_count)
    ∧ ((∀ q : Rat, purchaseAdd e = some q → 0 ≤ q) →
        a.purchase_total_amount
            ≤ (updateAggregations isoHour e a).1.purchase_total_amount
        ∧ (0 ≤ a.purchase_total_amount
            → 0 ≤ (updateAggregations isoHour e a).1.purchase_total_amount))
    ∧ ((∀ q : Rat, sessionAdd e = some q → 0 ≤ q) →
        a.session_duration_sum
            ≤ (updateAggregations isoHour e a).1.session_duration_sum
        ∧ (0 ≤ a.session_duration_sum
            → 0 ≤ (updateAggregations isoHour e a).1.session_duration_sum)) := by
  cases e with
  | obj kvs =>
      obtain ⟨h1, -⟩ := updateAggregations_obj_spec isoHour kvs a
      rw [h1]
      refine ⟨⟨fun k => bump_le _ _ k, fun h => hourlyVal_le _ _ _ h,
               fun k => bump_le _ _ k, fun k => bump_le _ _ k,
               fun k => bump_le _ _ k, Nat.le_add_right _ _,
               fun k => errorValKVs_le _ _ k, Nat.le_add_right _ _⟩, ?_, ?_⟩
      · intro hp
        have hq : 0 ≤ (purchaseAddKVs kvs).getD 0 := by
          cases hx : purchaseAddKVs kvs with
          | none => simp
          | some q => simpa using hp q (by simp [purchaseAdd, hx])
        exact ⟨le_add_of_nonneg_right hq, fun h0 => add_nonneg h0 hq⟩
      · intro hs
        have hq2 : 0 ≤ (sessionAddKVs kvs).getD 0 := by
          cases hx : sessionAddKVs kvs with
          | none => simp
          | some q => simpa using hs q (by simp [sessionAdd, hx])
        exact ⟨le_add_of_nonneg_right hq2, fun h0 => add_nonneg h0 hq2⟩
  | null =>
      exact ⟨⟨fun k => le_rfl, fun h => le_rfl, fun k => le_rfl, fun k => le_rfl,
              fun k => le_rfl, le_rfl, fun k => le_rfl, le_rfl⟩,
             fun _ => ⟨le_rfl, id⟩, fun _ => ⟨le_rfl, id⟩⟩
  | bool b =>
      exact ⟨⟨fun k => le_rfl, fun h => le_rfl, fun k => le_rfl, fun k => le_rfl,
              fun k => le_rfl, le_rfl, fun k => le_rfl, le_rfl⟩,
             fun _ => ⟨le_rfl, id⟩, fun _ => ⟨le_rfl, id⟩⟩
  | num q =>
      exact ⟨⟨fun k => le_rfl, fun h => le_rfl, fun k => le_rfl, fun k => le_rfl,
              fun k => le_rfl, le_rfl, fun k => le_rfl, le_rfl⟩,
             fun _ => ⟨le_rfl, id⟩, fun _ => ⟨le_rfl, id⟩⟩
  | str s =>
      exact ⟨⟨fun k => le_rfl, fun h => le_rfl, fun k => le_rfl, fun k => le_rfl,
              fun k => le_rfl, le_rfl, fun k => le_rfl, le_rfl⟩,
             fun _ => ⟨le_rfl, id⟩, fun _ => ⟨le_rfl, id⟩⟩
  | arr xs =>
      exact ⟨⟨fun k => le_rfl, fun h => le_rfl, fun k => le_rfl, fun k => le_rfl,
              fun k => le_rfl, le_rfl, fun k => le_rfl, le_rfl⟩,
             fun _ => ⟨le_rfl, id⟩, fun _ => ⟨le_rfl, id⟩⟩

/-- A purchase record with amount 3. -/
def purchasePosEntry : Json :=
  .obj [("event_type", .str "purchase"),
        ("data", .obj [("total_amount", .num 3)])]

/-- A purchase record whose `data.total_amount` is the negative number
-1, a value the schema permits. -/
def purchaseNegEntry : Json :=
  .obj [("event_type", .str "purchase"),
        ("data", .obj [("total_amount", .num (-1))])]

/-- Witness for C5: the occurrence-counter part applies unconditionally,
also at the purchase of negative amount -1; the accumulator part applies
at a purchase of non-negative amount 3 with its side conditions
discharged. -/
theorem aggregation_counters_monotone_witness :
    initAgg.purchase_count
        ≤ (updateAggregations (fun _ => none) purchaseNegEntry
             initAgg).1.purchase_count
    ∧ initAgg.purchase_total_amount
        ≤ (updateAggregations (fun _ => none) purchasePosEntry
             initAgg).1.purchase_total_amount
    ∧ initAgg.session_duration_sum
        ≤ (updateAggregations (fun _ => none) purchasePosEntry
             initAgg).1.session_duration_sum := by
  obtain ⟨⟨-, -, -, -, -, hcnt, -, -⟩, -, -⟩ :=
    aggregation_counters_monotone (fun _ => none) purchaseNegEntry initAgg
  obtain ⟨-, hpt, hsd⟩ :=
    aggregation_counters_monotone (fun _ => none) purchasePosEntry initAgg
  refine ⟨hcnt, ?_, ?_⟩
  · refine (hpt ?_).1
    intro q hq
    rw [show purchaseAdd purchasePosEntry = some 3 from by decide] at hq
    injection hq with h
    rw [← h]
    norm_num
  · refine (hsd ?_).1
    intro q hq
    rw [show sessionAdd purchasePosEntry = none from by decide] at hq
    exact absurd hq (by simp)

/-- C5 counterexample: one update with a purchase of amount -1 strictly
decreases `purchase_summary.total_amount` and drives it below zero. -/
theorem negative_amount_decreases_total :
    (updateAggregations (fun _ => none) purchaseNegEntry
        initAgg).1.purchase_total_amount < initAgg.purchase_total_amount
    ∧ (updateAggregations (fun _ => none) purchaseNegEntry
        initAgg).1.purchase_total_amount < 0 := by
  obtain ⟨h1, -⟩ :=
    updateAggregations_obj_spec (fun _ => none)
      [("event_type", .str "purchase"),
       ("data", .obj [("total_amount", .num (-1))])] initAgg
  have hadd : purchaseAddKVs
      [("event_type", Json.str "purchase"),
       ("data", Json.obj [("total_amount", Json.num (-1))])] = some (-1) := by
    decide
  constructor
  · show (updateAggregations (fun _ => none) purchaseNegEntry
        initAgg).1.purchase_total_amount < initAgg.purchase_total_amount
    rw [show purchaseNegEntry
          = Json.obj [("event_type", .str "purchase"),
                      ("data", .obj [("total_amount", .num (-1))])] from rfl, h1]
    simp only [hadd, initAgg]
    norm_num
  · rw [show purchaseNegEntry
          = Json.obj [("event_type", .str "purchase"),
                      ("data", .obj [("total_amount", .num (-1))])] from rfl, h1]
    simp only [hadd, initAgg]
    norm_num

/-! ## Pipeline invariant (C3) -/

/-- Only a dict can pass validation. -/
lemma validate_ok_true_obj (isoHour : String → Option (Fin 24)) (e : Json)
    (h : validate_log_entry isoHour e = .ok true) : ∃ kvs, e = .obj kvs := by
  cases e with
  | obj kvs => exact ⟨kvs, rfl⟩
  | null =>
      exact absurd h (by
        simp [validate_log_entry, checkRequired, requiredFields, pyContains])
  | bool b =>
      exact absurd h (by
        simp [validate_log_entry, checkRequired, requiredFields, pyContains])
  | num q =>
      exact absurd h (by
        simp [validate_log_entry, checkRequired, requiredFields, pyContains])
  | arr xs =>
      cases hx : (xs.any fun v => jsonIsStr v "timestamp") with
      | false =>
          exact absurd h (by
            simp [validate_log_entry, checkRequired, requiredFields, pyContains, hx])
      | true =>
          exact absurd h (by
            simp [validate_log_entry, checkRequired, requiredFields, pyContains,
                  pyGetItem, hx])
  | str s =>
      cases hx : strContains s "timestamp" with
      | false =>
          exact absurd h (by
            simp [validate_log_entry, checkRequired, requiredFields, pyContains, hx])
      | true =>
          exact absurd h (by
            simp [validate_log_entry, checkRequired, requiredFields, pyContains,
                  pyGetItem, hx])

/-- A validated dict carries every required field with its type, and its
timestamp parses to an hour. -/
lemma validate_fields (isoHour : String → Option (Fin 24))
    (kvs : List (String × Json))
    (h : validate_log_entry isoHour (.obj kvs) = .ok true) :
    (∀ ft ∈ requiredFields, ∃ v, lookupKey kvs ft.1 = some v
        ∧ isinstanceOf v ft.2 = true)
    ∧ ∃ ts h24, lookupKey kvs "timestamp" = some (.str ts)
        ∧ isoHour ts = some h24 := by
  obtain ⟨b, hb⟩ := checkRequired_obj_exists kvs requiredFields
  cases b with
  | false => simp [validate_log_entry, hb] at h
  | true =>
      have hfields := (checkRequired_obj_true_iff kvs requiredFields).mp hb
      obtain ⟨v, hv, hvi⟩ := hfields ("timestamp", .str) (by simp [requiredFields])
      cases v with
      | str ts =>
          have hget : pyGetItem (.obj kvs) "timestamp" = .ok (.str ts) := by
            simp [pyGetItem, hv]
          have hsome : (isoHour ts).isSome = true := by
            simpa [validate_log_entry, hb, hget] using h
          obtain ⟨h24, hh⟩ := Option.isSome_iff_exists.mp hsome
          exact ⟨hfields, ts, h24, hv, hh⟩
      | null => simp [isinstanceOf] at hvi
      | bool b' => simp [isinstanceOf] at hvi
      | num q => simp [isinstanceOf] at hvi
      | arr xs => simp [isinstanceOf] at hvi
      | obj kvs' => simp [isinstanceOf] at hvi

/-- Assigning one key leaves the others unchanged. -/
lemma lookupKey_setKey_ne (kvs : List (String × Json)) (k : String) (v : Json)
    (k' : String) (h : k' ≠ k) :
    lookupKey (setKey kvs k v) k' = lookupKey kvs k' := by
  induction kvs with
  | nil => simp [setKey, lookupKey, Ne.symm h]
  | cons kv rest ih =>
      obtain ⟨k0, v0⟩ := kv
      by_cases h0 : k0 = k
      · subst h0
        simp [setKey, lookupKey, Ne.symm h]
      · by_cases h1 : k0 = k'
        · simp [setKey, lookupKey, h0, h1, h]
        · simp [setKey, lookupKey, h0, h1, ih]

/-- Enrichment of a validated entry succeeds and leaves `timestamp`
untouched. -/
lemma enrich_of_validated (kvs : List (String × Json)) (ua : String)
    (hua : lookupKey kvs "user_agent" = some (.str ua)) :
    ∃ kvs3, enrich_log_entry (.obj kvs) = .ok (.obj kvs3)
      ∧ lookupKey kvs3 "timestamp" = lookupKey kvs "timestamp" := by
  simp only [enrich_log_entry, hua]
  refine ⟨_, rfl, ?_⟩
  rw [lookupKey_setKey_ne _ _ _ _ (by decide),
      lookupKey_setKey_ne _ _ _ _ (by decide),
      lookupKey_setKey_ne _ _ _ _ (by decide)]

/-- An update on an entry whose timestamp parses bumps exactly one hourly
bucket, whether or not a conditional block raises afterwards. -/
lemma update_hourly_bump (isoHour : String → Option (Fin 24))
    (kvs : List (String × Json)) (a : AggState) (ts : String) (h24 : Fin 24)
    (hts : lookupKey kvs "timestamp" = some (.str ts))
    (hh : isoHour ts = some h24) :
    (updateAggregations isoHour (.obj kvs) a).1.hourly_traffic
      = bumpHour a.hourly_traffic h24 := by
  obtain ⟨h1, -⟩ := updateAggregations_obj_spec isoHour kvs a
  rw [h1]
  show hourlyVal isoHour (dgetD kvs "timestamp" .null) a.hourly_traffic = _
  simp [hourlyVal, dgetD, hts, hh]

/-- One hourly bump raises the total over all 24 buckets by one. -/
lemma sum_bumpHour (f : Fin 24 → Nat) (h24 : Fin 24) :
    (∑ x : Fin 24, bumpHour f h24 x) = (∑ x : Fin 24, f x) + 1 := by
  unfold bumpHour
  rw [Finset.sum_update_of_mem (Finset.mem_univ h24),
      Finset.sdiff_singleton_eq_erase,
      ← Finset.add_sum_erase Finset.univ f (Finset.mem_univ h24)]
  omega

/-- `parse_log_line` on a text line returns (never raises), and either
fails with `parsed` untouched or succeeds on a validated entry with
`parsed` incremented. -/
lemma parse_line_split (isoHour : String → Option (Fin 24))
    (now text : String) (dec : Except String Json) (st : ParserState) :
    (∃ st', parse_log_line isoHour now (.line text dec) st = (.ok none, st')
       ∧ st'.parsed = st.parsed)
    ∨ (∃ e st', parse_log_line isoHour now (.line text dec) st = (.ok (some e), st')
       ∧ validate_log_entry isoHour e = .ok true
       ∧ st'.parsed = st.parsed + 1) := by
  cases dec with
  | error msg => exact Or.inl ⟨_, rfl, rfl⟩
  | ok entry =>
      cases hv : validate_log_entry isoHour entry with
      | error msg =>
          exact Or.inl ⟨handle_failed_log st now text "unexpected_error"
              ("Unexpected error parsing log line: " ++ msg ++ " - Line: "
                ++ pyStrip text),
            by simp [parse_log_line, hv], rfl⟩
      | ok b =>
          cases b with
          | true =>
              exact Or.inr ⟨entry, { st with parsed := st.parsed + 1 },
                by simp [parse_log_line, hv], hv, rfl⟩
          | false =>
              exact Or.inl ⟨handle_failed_log st now text "validation_failed"
                  ("Validation failed for log entry: " ++ text),
                by simp [parse_log_line, hv], rfl⟩

/-- One streaming-loop iteration preserves the invariant
`total hourly traffic = parsed`. -/
lemma pipelineStep_hourly_inv (isoHour : String → Option (Fin 24))
    (inp : LineInput) (ps : PipelineState)
    (h : (∑ x : Fin 24, ps.agg.hourly_traffic x) = ps.parser.parsed) :
    (∑ x : Fin 24, (pipelineStep isoHour inp ps).1.agg.hourly_traffic x)
      = (pipelineStep isoHour inp ps).1.parser.parsed := by
  rcases parse_line_split isoHour inp.now inp.text inp.decoded ps.parser with
    ⟨st', hp, hparsed⟩ | ⟨e, st', hp, hval, hparsed⟩
  · simp only [pipelineStep, hp]
    simpa [hparsed] using h
  · obtain ⟨kvs, rfl⟩ := validate_ok_true_obj isoHour e hval
    obtain ⟨hfields, ts, h24, hts, hh⟩ := validate_fields isoHour kvs hval
    obtain ⟨vua, hvua, hvuai⟩ := hfields ("user_agent", .str)
      (by simp [requiredFields])
    cases vua with
    | str ua =>
        obtain ⟨kvs3, henrich, hts3⟩ := enrich_of_validated kvs ua hvua
        have hbump : (updateAggregations isoHour (.obj kvs3) ps.agg).1.hourly_traffic
            = bumpHour ps.agg.hourly_traffic h24 :=
          update_hourly_bump isoHour kvs3 ps.agg ts h24 (hts3.trans hts) hh
        rcases hu : updateAggregations isoHour (.obj kvs3) ps.agg with ⟨agg', oe⟩
        have hbump2 : agg'.hourly_traffic = bumpHour ps.agg.hourly_traffic h24 := by
          rw [hu] at hbump
          exact hbump
        cases oe with
        | none =>
            simp only [pipelineStep, hp, henrich, hu]
            simpa [hbump2, hparsed, sum_bumpHour] using h
        | some msg =>
            simp only [pipelineStep, hp, henrich, hu]
            simpa [hbump2, hparsed, sum_bumpHour] using h
    | null => simp [isinstanceOf] at hvuai
    | bool b' => simp [isinstanceOf] at hvuai
    | num q => simp [isinstanceOf] at hvuai
    | arr xs => simp [isinstanceOf] at hvuai
    | obj kvs' => simp [isinstanceOf] at hvuai

/-- C3: over any streaming run from a fresh pipeline, the hourly-traffic
buckets sum exactly to the `parsed` counter: every successfully validated
record has a timestamp the same `fromisoformat` oracle already accepted,
so its hour lies in 0..23, the defensive skip branch is never taken, and
exactly one bucket is incremented per parsed record. -/
theorem hourly_sum_eq_parsed (isoHour : String → Option (Fin 24))
    (inputs : List LineInput) :
    (∑ x : Fin 24,
        (processPipeline isoHour inputs initPipeline).agg.hourly_traffic x)
      = (processPipeline isoHour inputs initPipeline).parser.parsed := by
  have main : ∀ (l : List LineInput) (ps : PipelineState),
      (∑ x : Fin 24, ps.agg.hourly_traffic x) = ps.parser.parsed →
      (∑ x : Fin 24, (processPipeline isoHour l ps).agg.hourly_traffic x)
        = (processPipeline isoHour l ps).parser.parsed := by
    intro l
    induction l with
    | nil => intro ps h; simpa [processPipeline] using h
    | cons inp rest ih =>
        intro ps h
        rw [processPipeline]
        have hinv := pipelineStep_hourly_inv isoHour inp ps h
        rcases hstep : pipelineStep isoHour inp ps with ⟨ps', crashed⟩
        rw [hstep] at hinv
        cases crashed with
        | true => simpa using hinv
        | false => simpa using ih ps' hinv
  exact main inputs initPipeline (by simp [initPipeline, initAgg, initParserState])

/-! ## Tailer theorems (C9) -/

/-- The tailer invariant: the file is the initial content plus the lines
appended so far, the read position never points before the initial
content, and the delivered lines are exactly the first
`pos - initial.length` appended lines, in order. -/
def TailInv (initial : List String) (s : TailState) : Prop :=
  ∃ A, s.file = initial ++ A
    ∧ initial.length ≤ s.pos
    ∧ s.pos ≤ s.file.length
    ∧ s.delivered = A.take (s.pos - initial.length)

/-- The invariant holds right after open and seek-to-end. -/
lemma tailInit_inv (initial : List String) : TailInv initial (tailInit initial) := by
  exact ⟨[], by simp [tailInit], le_rfl, by simp [tailInit], by simp [tailInit]⟩

/-- Every tailer transition preserves the invariant. -/
lemma tailStep_inv (initial : List String) (e : TailEvent) (s : TailState)
    (h : TailInv initial s) : TailInv initial (tailStep e s) := by
  obtain ⟨A, hfile, hlo, hhi, hdel⟩ := h
  cases e with
  | append l =>
      refine ⟨A ++ [l], ?_, hlo, ?_, ?_⟩
      · simp [tailStep, hfile]
      · simp [tailStep]
        omega
      · simp only [tailStep]
        rw [hdel, List.take_append_of_le_length]
        have := hhi
        rw [hfile] at this
        simp at this
        omega
  | poll =>
      by_cases hlt : s.pos < s.file.length
      · have hstep : tailStep .poll s
            = { s with pos := s.pos + 1,
                       delivered := s.delivered ++ [s.file.get ⟨s.pos, hlt⟩] } := by
          simp [tailStep, hlt]
        rw [hstep]
        refine ⟨A, hfile, by simp; omega, by simp; omega, ?_⟩
        have hlen : s.file.length = initial.length + A.length := by
          rw [hfile]; simp
        have hposA : s.pos - initial.length < A.length := by omega
        have hget : s.file.get ⟨s.pos, hlt⟩
            = A.get ⟨s.pos - initial.length, hposA⟩ := by
          simp only [List.get_eq_getElem, hfile]
          rw [List.getElem_append_right hlo]
        show s.delivered ++ [s.file.get ⟨s.pos, hlt⟩] = _
        rw [hdel, hget]
        have hsub : s.pos + 1 - initial.length = (s.pos - initial.length) + 1 := by
          omega
        show _ = List.take (s.pos + 1 - initial.length) A
        rw [hsub, List.take_succ, List.getElem?_eq_getElem hposA]
        simp
      · have hstep : tailStep .poll s = s := by simp [tailStep, hlt]
        rw [hstep]
        exact ⟨A, hfile, hlo, hhi, hdel⟩

/-- The invariant holds after any finite run. -/
lemma tailRun_inv (initial : List String) (s : TailState) (evs : List TailEvent)
    (h : TailInv initial s) : TailInv initial (tailRun s evs) := by
  induction evs generalizing s with
  | nil => exact h
  | cons e rest ih => exact ih _ (tailStep_inv initial e s h)

/-- Runs compose. -/
lemma tailRun_append (s : TailState) (evs1 evs2 : List TailEvent) :
    tailRun s (evs1 ++ evs2) = tailRun (tailRun s evs1) evs2 := by
  induction evs1 generalizing s with
  | nil => rfl
  | cons e rest ih => simp [tailRun, ih]

/-- A poll never changes the file. -/
lemma tailStep_poll_file (s : TailState) : (tailStep .poll s).file = s.file := by
  simp only [tailStep]
  split <;> rfl

/-- The file after a run is the file before plus the appended lines. -/
lemma tailRun_file (s : TailState) (evs : List TailEvent) :
    (tailRun s evs).file = s.file ++ appendsOf evs := by
  induction evs generalizing s with
  | nil => simp [tailRun, appendsOf]
  | cons e rest ih =>
      cases e with
      | append l =>
          rw [tailRun, ih]
          simp [tailStep, appendsOf]
      | poll =>
          rw [tailRun, ih, tailStep_poll_file]
          simp [appendsOf]

/-- Polling `n` times advances the position by `n`, capped at the end of
the file, and changes nothing else except the deliveries. -/
lemma tailRun_polls (s : TailState) (n : Nat) (hhi : s.pos ≤ s.file.length) :
    (tailRun s (List.replicate n .poll)).file = s.file
    ∧ (tailRun s (List.replicate n .poll)).pos = min (s.pos + n) s.file.length := by
  induction n generalizing s with
  | zero => simp [tailRun]; omega
  | succ m ih =>
      rw [List.replicate_succ, tailRun]
      by_cases hlt : s.pos < s.file.length
      · have hstep : tailStep .poll s
            = { s with pos := s.pos + 1,
                       delivered := s.delivered ++ [s.file.get ⟨s.pos, hlt⟩] } := by
          simp [tailStep, hlt]
        rw [hstep]
        obtain ⟨hf, hp⟩ := ih { s with pos := s.pos + 1,
                                       delivered := s.delivered
                                         ++ [s.file.get ⟨s.pos, hlt⟩] } (by simpa using hlt)
        refine ⟨by simpa using hf, ?_⟩
        rw [hp]
        simp
        omega
      · have hstep : tailStep .poll s = s := by simp [tailStep, hlt]
        rw [hstep]
        obtain ⟨hf, hp⟩ := ih s hhi
        refine ⟨hf, ?_⟩
        rw [hp]
        omega

/-- C9: over any interleaving of appends and polls started on any initial
file content, the lines the tail loop has delivered are exactly a prefix
of the appended lines, in append order (so no pre-existing line is ever
delivered and nothing is delivered twice); and once it has polled often
enough, it has delivered every appended line exactly once. -/
theorem tailer_delivers_appended_lines (initial : List String)
    (evs : List TailEvent) :
    (tailRun (tailInit initial) evs).delivered
      = (appendsOf evs).take
          ((tailRun (tailInit initial) evs).pos - initial.length)
    ∧ (tailRun (tailInit initial)
          (evs ++ List.replicate
            ((tailRun (tailInit initial) evs).file.length) .poll)).delivered
      = appendsOf evs := by
  have hinv := tailRun_inv initial (tailInit initial) evs (tailInit_inv initial)
  obtain ⟨A, hfile, hlo, hhi, hdel⟩ := hinv
  have hAfile : (tailRun (tailInit initial) evs).file = initial ++ appendsOf evs := by
    rw [tailRun_file]; simp [tailInit]
  have hA : A = appendsOf evs := by
    have h2 : initial ++ A = initial ++ appendsOf evs := by
      rw [← hfile, hAfile]
    exact List.append_cancel_left h2
  subst hA
  constructor
  · exact hdel
  · rw [tailRun_append]
    set s0 := tailRun (tailInit initial) evs with hs0
    obtain ⟨hf, hp⟩ := tailRun_polls s0 s0.file.length hhi
    have hinv2 := tailRun_inv initial s0 (List.replicate s0.file.length .poll)
      ⟨appendsOf evs, hfile, hlo, hhi, hdel⟩
    obtain ⟨A2, hfile2, hlo2, hhi2, hdel2⟩ := hinv2
    have hA2 : A2 = appendsOf evs := by
      have h2 : initial ++ A2 = initial ++ appendsOf evs := by
        rw [← hfile2, hf, hfile]
      exact List.append_cancel_left h2
    subst hA2
    rw [hdel2, hf] at *
    have hlen : s0.file.length = initial.length + (appendsOf evs).length := by
      rw [hfile]; simp
    have hpos : (tailRun s0 (List.replicate s0.file.length .poll)).pos
        = s0.file.length := by
      rw [hp]; omega
    rw [hpos, hlen]
    simp
